import Mathlib

/-!
Shallow embedding of the mock-interview web application (src/app.py and
src/llm.py) and proofs about its specification claims.

Modelling conventions:
  * Machine/DB integers are `Nat`, Python floats are `ℚ` (the scoring code
    only multiplies, compares against the literals 0.85 / 0.6 and rounds to
    two decimal places, so rationals model it exactly up to float rounding).
  * Nullable DB columns are `Option`; Python string truthiness
    (`if attempt.question.model_answer:`) treats both `None` and `""` as
    false, captured by `truthyStr`.
  * The external collaborators (the spaCy similarity model and the
    HuggingFace chat endpoint) are opaque oracles, grouped in `Externals`.
    A remote call that raises is an `Except.error`.
  * One HTTP request is a function `World → World × Response`; `World` holds
    the DB tables, the (cookie) session and the flash-message queue.
-/

namespace MockInterview

/-! ### External collaborators -/

/-- The two external services the process holds at module scope:
`nlp` (spaCy document similarity, app.py line 13) and the HuggingFace
inference client (llm.py lines 7-10).  `sim u m` is the raw similarity
of user answer `u` against model answer `m`; `remoteChat p` is the chat
completion for prompt `p`, `Except.error` when the remote call raises. -/
structure Externals where
  sim : String → String → ℚ
  remoteChat : String → Except String String

/-! ### Python rounding, `round(x, 2)` on rationals -/

/-- Python built-in `round` to the nearest integer, ties to even,
modelled on rationals. -/
def pyRoundInt (q : ℚ) : ℤ :=
  if q - ⌊q⌋ < 1/2 then ⌊q⌋
  else if 1/2 < q - ⌊q⌋ then ⌊q⌋ + 1
  else if ⌊q⌋ % 2 = 0 then ⌊q⌋ else ⌊q⌋ + 1

/-- Python `round(x, 2)` (app.py line 201) on rationals. -/
def pyRound2 (q : ℚ) : ℚ := (pyRoundInt (q * 100) : ℚ) / 100

/-! ### Data model (app.py lines 29-58) -/

/-- `Question` row: `model_answer` is a nullable text column. -/
structure Question where
  id : Nat
  text : String
  model_answer : Option String
  subject_id : Nat
  deriving Repr, DecidableEq

/-- `Attempt` row: `similarity_score` and `feedback` are nullable until the
summary step scores them. -/
structure Attempt where
  interview_id : Nat
  question_id : Nat
  user_answer : String
  similarity_score : Option ℚ
  feedback : Option String
  deriving Repr, DecidableEq

/-- `Interview` row. -/
structure Interview where
  id : Nat
  user_id : Nat
  deriving Repr, DecidableEq

/-- `User` row: the e-mail column is unique, the password is stored hashed. -/
structure UserRec where
  email : String
  password_hash : String
  deriving Repr, DecidableEq

/-- The cookie-backed Flask session keys the app uses
(`interview_id`, `question_ids`). -/
structure SessionState where
  interview_id : Option Nat
  question_ids : Option (List Nat)
  deriving Repr, DecidableEq

/-- Mutable request-visible state: DB tables, session, flash queue. -/
structure World where
  users : List UserRec
  interviews : List Interview
  questions : List Question
  attempts : List Attempt
  session : SessionState
  flashes : List String
  next_interview_id : Nat
  deriving Repr, DecidableEq

/-- Outcome of a request, as the app distinguishes them. -/
inductive Response where
  | renderRegister
  | renderLogin
  | renderDashboard
  | renderQuestion (idx : Nat)
  | renderSummary
  | redirectLogin
  | redirectDashboard
  | redirectQuestion (idx : Nat)
  | redirectSummary
  | notFound
  | serverError
  deriving Repr, DecidableEq

/-- Python string truthiness of a nullable text column:
`None` and `""` are falsy. -/
def truthyStr (o : Option String) : Bool :=
  match o with
  | none => false
  | some s => !(s == "")

/-! ### Fixed strings from the source -/

def feedbackExcellent : String :=
  "Excellent! Your answer is very closely aligned with the key concepts."

def feedbackGood : String :=
  "Good answer. You\x27ve covered the main points, but could add more detail."

def feedbackDisconnect : String :=
  "There seems to be a disconnect. Review the topic to better align with the core concepts."

def noModelAnswerFeedback : String :=
  "No model answer available to compare against."

def noQuestionsMsg : String :=
  "No questions found for the selected subjects. Please try other subjects."

def sessionNotFoundMsg : String :=
  "Interview session not found. Please start a new one."

def noInterviewMsg : String :=
  "Could not find an interview to summarize."

/-! ### Summary scoring (app.py lines 193-211) -/

/-- Resolve the `attempt.question` relationship (foreign key lookup). -/
def findQuestion (qs : List Question) (qid : Nat) : Option Question :=
  qs.find? (fun q => q.id == qid)

/-- The body of the `for attempt in interview.attempts` loop of
`interview_summary` (app.py lines 193-211), acting on one attempt.
If the question's model answer is truthy the spaCy similarity is taken,
scaled by 100 and rounded to 2 decimals, and the feedback is chosen by
thresholds on the raw similarity; otherwise the score is 0 and the feedback
the fixed fallback string.  An attempt whose question row is missing is
returned unchanged (the ORM relationship never fails under FK integrity). -/
def summarizeAttempt (ext : Externals) (qs : List Question) (a : Attempt) : Attempt :=
  match findQuestion qs a.question_id with
  | none => a
  | some q =>
    if truthyStr q.model_answer then
      let s : ℚ := ext.sim a.user_answer (q.model_answer.getD "")
      { a with
        similarity_score := some (pyRound2 (s * 100)),
        feedback := some (if 85/100 < s then feedbackExcellent
                          else if 6/10 < s then feedbackGood
                          else feedbackDisconnect) }
    else
      { a with similarity_score := some 0, feedback := some noModelAnswerFeedback }

/-- The whole scoring pass of `interview_summary`: every attempt of the
interview (the `interview.attempts` backref) is scored in place, all other
rows are untouched. -/
def scoreInterview (ext : Externals) (qs : List Question) (iid : Nat)
    (attempts : List Attempt) : List Attempt :=
  attempts.map (fun a => if a.interview_id == iid then summarizeAttempt ext qs a else a)

/-- The `/interview/summary` route (app.py lines 180-215): pops both session
keys, checks the popped interview id for truthiness, 404s when the interview
row is missing, otherwise scores every attempt of the interview and renders
the summary. -/
def interview_summary (ext : Externals) (w : World) : World × Response :=
  let iid? := w.session.interview_id
  let w0 : World := { w with session := ⟨none, none⟩ }
  match iid? with
  | none =>
    ({ w0 with flashes := w0.flashes ++ [noInterviewMsg] }, Response.redirectDashboard)
  | some iid =>
    if iid = 0 then
      ({ w0 with flashes := w0.flashes ++ [noInterviewMsg] }, Response.redirectDashboard)
    else if w.interviews.any (fun iv => iv.id == iid) then
      ({ w0 with attempts := scoreInterview ext w.questions iid w0.attempts },
       Response.renderSummary)
    else
      (w0, Response.notFound)

/-! ### Question flow (app.py lines 153-176) -/

/-- A freshly recorded `Attempt` row (app.py line 168): scoring columns
start out null. -/
def mkAttempt (iid qid : Nat) (ans : String) : Attempt :=
  { interview_id := iid, question_id := qid, user_answer := ans,
    similarity_score := none, feedback := none }

/-- The `/interview/question/<question_index>` route.  `post` is
`some answer` for a POST whose form submitted `answer` (`DataRequired`
rejects an empty answer, re-rendering the page), `none` for a GET.
Missing session → flash + redirect to dashboard; index past the end →
redirect to summary; missing question row → 404; valid submission →
create an `Attempt` and redirect to the next index or to the summary. -/
def interview_question (w : World) (question_index : Nat) (post : Option String) :
    World × Response :=
  match w.session.question_ids with
  | none =>
    ({ w with flashes := w.flashes ++ [sessionNotFoundMsg] }, Response.redirectDashboard)
  | some question_ids =>
    if question_index < question_ids.length then
      let question_id := question_ids.getD question_index 0
      match findQuestion w.questions question_id with
      | none => (w, Response.notFound)
      | some _q =>
        match post with
        | none => (w, Response.renderQuestion question_index)
        | some ans =>
          if ans = "" then (w, Response.renderQuestion question_index)
          else
            match w.session.interview_id with
            | none => (w, Response.serverError)
            | some iid =>
              let w2 : World :=
                { w with attempts := w.attempts ++ [mkAttempt iid question_id ans] }
              if question_index + 1 < question_ids.length then
                (w2, Response.redirectQuestion (question_index + 1))
              else
                (w2, Response.redirectSummary)
    else
      (w, Response.redirectSummary)

/-- Submit a list of answers at consecutive indices, starting at `i`:
the run of POSTs a user performs while stepping through an interview. -/
def runAnswers : World → Nat → List String → World
  | w, _, [] => w
  | w, i, ans :: rest => runAnswers (interview_question w i (some ans)).1 (i + 1) rest

/-! ### Dashboard / start of an interview (app.py lines 128-151) -/

/-- The POST branch of the `/dashboard` route.  `selected` are the chosen
subject ids (`DataRequired` rejects an empty selection); `shuffle` models
the DB's `order_by(random())` as an opaque reordering of the filtered
question list.  The interview row is created before the emptiness check,
exactly as in the source. -/
def dashboard (w : World) (user_id : Nat) (selected : List Nat)
    (shuffle : List Question → List Question) : World × Response :=
  if selected.isEmpty then (w, Response.renderDashboard)
  else
    let iid := w.next_interview_id
    let w1 : World :=
      { w with interviews := w.interviews ++ [⟨iid, user_id⟩],
               next_interview_id := iid + 1 }
    let sample :=
      (shuffle (w.questions.filter (fun q => selected.contains q.subject_id))).take 10
    if sample.isEmpty then
      ({ w1 with flashes := w1.flashes ++ [noQuestionsMsg] }, Response.redirectDashboard)
    else
      ({ w1 with session := ⟨some iid, some (sample.map Question.id)⟩ },
       Response.redirectQuestion 0)

/-! ### Registration and login (app.py lines 60-64, 97-121) -/

/-- The password-hashing library (werkzeug `generate_password_hash` /
`check_password_hash`), opaque to this code. -/
structure HashScheme where
  gen : String → String
  check : String → String → Bool

/-- The POST branch of `/register`.  The form validators are `DataRequired`
and `Email()` on the e-mail (the format check is the opaque
`emailValid`), `Length(min=6)` on the password and `EqualTo` on the
confirmation.  The route never pre-checks uniqueness: inserting a duplicate
e-mail violates the unique column constraint and the commit raises
(`serverError`). -/
def register (hs : HashScheme) (emailValid : String → Bool)
    (users : List UserRec) (email password confirm : String) :
    List UserRec × Response :=
  if email ≠ "" ∧ emailValid email = true ∧ 6 ≤ password.length ∧ confirm = password then
    if users.any (fun u => u.email == email) then (users, Response.serverError)
    else (users ++ [⟨email, hs.gen password⟩], Response.redirectLogin)
  else (users, Response.renderRegister)

/-- Outcome of a login POST: `success` means `login_user` ran and the user
was redirected to the dashboard; `invalid` means the flash-and-rerender
branch. -/
inductive LoginResult where
  | success
  | invalid
  deriving Repr, DecidableEq

/-- The POST branch of `/login`: look the user up by e-mail
(`filter_by(email=...).first()`), then `check_password`. -/
def login (hs : HashScheme) (users : List UserRec) (email password : String) :
    LoginResult :=
  match users.find? (fun u => u.email == email) with
  | some u => if hs.check u.password_hash password then LoginResult.success
              else LoginResult.invalid
  | none => LoginResult.invalid

/-! ### The remote feedback call (src/llm.py) -/

/-- The instructional prompt template of `generate_feedback`
(llm.py lines 13-26). -/
def feedbackPrompt (user_answer model_answer : String) : String :=
  "\nYou are an instructor evaluating a student\x27s answer against a model answer.\n\nPlease provide ONLY the following, exactly in this format, and only in this format, nothing before or after:\n[one or two concise sentences about errors, missing points, or misunderstandings]\n\nUser answer:\n" ++ user_answer ++ "\n\nModel answer:\n" ++ model_answer ++ "\n\nYour evaluation:\n"

/-- `generate_feedback` (llm.py lines 12-34): formats the prompt and performs
the remote chat-completion call.  The body contains no `try`/`except`, so a
failing remote call propagates out of the function unchanged. -/
def generate_feedback (ext : Externals) (user_answer model_answer : String) :
    Except String String :=
  ext.remoteChat (feedbackPrompt user_answer model_answer)

/-! ### Helper lemmas about rounding -/

theorem le_pyRoundInt_of_le (n : ℤ) (q : ℚ) (h : (n : ℚ) ≤ q) : n ≤ pyRoundInt q := by
  have hf : n ≤ ⌊q⌋ := Int.le_floor.mpr h
  unfold pyRoundInt
  split_ifs <;> omega

theorem pyRoundInt_le_of_le (m : ℤ) (q : ℚ) (h : q ≤ (m : ℚ)) : pyRoundInt q ≤ m := by
  have hf : ⌊q⌋ ≤ m := by
    have h2 := Int.floor_le_floor h
    simpa using h2
  unfold pyRoundInt
  split_ifs with h1 h2 h3
  · exact hf
  · have hq : (⌊q⌋ : ℚ) + 1/2 < q := by
      have := Int.floor_le q
      linarith
    have hlt : (⌊q⌋ : ℚ) < (m : ℚ) := by linarith
    have : ⌊q⌋ < m := by exact_mod_cast hlt
    omega
  · exact hf
  · have h12 : (1 : ℚ)/2 ≤ q - ⌊q⌋ := le_of_not_lt h1
    have hlt : (⌊q⌋ : ℚ) < (m : ℚ) := by linarith
    have : ⌊q⌋ < m := by exact_mod_cast hlt
    omega

theorem pyRound2_mem (x : ℚ) (a b : ℤ) (h1 : (a : ℚ) ≤ x) (h2 : x ≤ (b : ℚ)) :
    (a : ℚ) ≤ pyRound2 x ∧ pyRound2 x ≤ (b : ℚ) := by
  have hx1 : ((a * 100 : ℤ) : ℚ) ≤ x * 100 := by push_cast; linarith
  have hx2 : x * 100 ≤ ((b * 100 : ℤ) : ℚ) := by push_cast; linarith
  have hlo := le_pyRoundInt_of_le (a * 100) (x * 100) hx1
  have hhi := pyRoundInt_le_of_le (b * 100) (x * 100) hx2
  have hloQ : ((a * 100 : ℤ) : ℚ) ≤ (pyRoundInt (x * 100) : ℚ) := by exact_mod_cast hlo
  have hhiQ : (pyRoundInt (x * 100) : ℚ) ≤ ((b * 100 : ℤ) : ℚ) := by exact_mod_cast hhi
  unfold pyRound2
  constructor
  · rw [le_div_iff₀ (by norm_num : (0 : ℚ) < 100)]
    push_cast at hloQ ⊢
    linarith
  · rw [div_le_iff₀ (by norm_num : (0 : ℚ) < 100)]
    push_cast at hhiQ ⊢
    linarith

/-! ### Claim C1 -/

/-- A question with a (non-empty) model answer, used as a concrete row. -/
def cexQuestion : Question :=
  { id := 1, text := "Q", model_answer := some "a model answer", subject_id := 1 }

/-- An attempt at `cexQuestion`. -/
def cexAttempt : Attempt :=
  { interview_id := 7, question_id := 1, user_answer := "an answer",
    similarity_score := none, feedback := none }

/-- An external world whose similarity model returns `-1/2` — a value the
spaCy cosine similarity, whose range is `[-1, 1]`, can take. -/
def simNegExternals : Externals :=
  { sim := fun _ _ => -(1/2), remoteChat := fun _ => Except.ok "" }

/-- C1 counterexample: the summary step applies no clamping, so a raw spaCy
similarity of `-1/2` (cosine similarity may be negative) is persisted as
`-50`, which is not in the closed interval `[0, 100]`. -/
theorem similarityScore_can_be_negative :
    (summarizeAttempt simNegExternals [cexQuestion] cexAttempt).similarity_score
        = some (-50)
      ∧ ¬ ((0 : ℚ) ≤ -50) := by
  constructor
  · simp [summarizeAttempt, findQuestion, cexQuestion, cexAttempt, simNegExternals,
      truthyStr]
    norm_num [pyRound2, pyRoundInt]
  · norm_num

/-- C1 (amended): for every attempt whose question has a non-empty model
answer, if the raw spaCy similarity lies in the cosine range `[-1, 1]` then
the persisted score — the similarity times 100 rounded to 2 decimal
places — lies in `[-100, 100]`; it lies in `[0, 100]` whenever the raw
similarity is nonnegative (the code performs no clamping, so a negative raw
similarity yields a negative persisted score). -/
theorem similarityScore_range (ext : Externals) (qs : List Question)
    (a : Attempt) (q : Question)
    (hfind : findQuestion qs a.question_id = some q)
    (hma : truthyStr q.model_answer = true)
    (hlo : -1 ≤ ext.sim a.user_answer (q.model_answer.getD ""))
    (hhi : ext.sim a.user_answer (q.model_answer.getD "") ≤ 1) :
    ∃ sc : ℚ,
      (summarizeAttempt ext qs a).similarity_score = some sc
        ∧ -100 ≤ sc ∧ sc ≤ 100
        ∧ (0 ≤ ext.sim a.user_answer (q.model_answer.getD "") → 0 ≤ sc) := by
  refine ⟨pyRound2 (ext.sim a.user_answer (q.model_answer.getD "") * 100), ?_, ?_, ?_, ?_⟩
  · simp [summarizeAttempt, hfind, hma]
  · have h := pyRound2_mem (ext.sim a.user_answer (q.model_answer.getD "") * 100)
      (-100) 100 (by push_cast; linarith) (by push_cast; linarith)
    exact_mod_cast h.1
  · have h := pyRound2_mem (ext.sim a.user_answer (q.model_answer.getD "") * 100)
      (-100) 100 (by push_cast; linarith) (by push_cast; linarith)
    exact_mod_cast h.2
  · intro h0
    have h := pyRound2_mem (ext.sim a.user_answer (q.model_answer.getD "") * 100)
      0 100 (by push_cast; linarith) (by push_cast; linarith)
    exact_mod_cast h.1

/-- An external world whose similarity model returns `7/10`. -/
def simPosExternals : Externals :=
  { sim := fun _ _ => 7/10, remoteChat := fun _ => Except.ok "" }

/-- Witness for `similarityScore_range` at a concrete attempt and a
similarity oracle returning `7/10`. -/
theorem similarityScore_range_witness :
    ∃ sc : ℚ,
      (summarizeAttempt simPosExternals [cexQuestion] cexAttempt).similarity_score = some sc
        ∧ -100 ≤ sc ∧ sc ≤ 100
        ∧ (0 ≤ simPosExternals.sim cexAttempt.user_answer
              ((cexQuestion.model_answer).getD "") → 0 ≤ sc) :=
  similarityScore_range simPosExternals [cexQuestion] cexAttempt cexQuestion
    (by decide) (by decide) (by norm_num [simPosExternals]) (by norm_num [simPosExternals])

/-! ### Frame and overwrite lemmas about the scoring pass -/

theorem summarizeAttempt_frame (ext : Externals) (qs : List Question) (a : Attempt) :
    (summarizeAttempt ext qs a).interview_id = a.interview_id
      ∧ (summarizeAttempt ext qs a).question_id = a.question_id
      ∧ (summarizeAttempt ext qs a).user_answer = a.user_answer := by
  unfold summarizeAttempt
  cases findQuestion qs a.question_id with
  | none => exact ⟨rfl, rfl, rfl⟩
  | some q =>
    by_cases hma : truthyStr q.model_answer = true
    · simp [hma]
    · simp [hma]

theorem summarizeAttempt_isSome (ext : Externals) (qs : List Question) (a : Attempt)
    (q : Question) (hfind : findQuestion qs a.question_id = some q) :
    (summarizeAttempt ext qs a).similarity_score.isSome
      ∧ (summarizeAttempt ext qs a).feedback.isSome := by
  simp only [summarizeAttempt, hfind]
  by_cases hma : truthyStr q.model_answer = true
  · simp [hma]
  · simp [hma]

theorem summarizeAttempt_overwrite (ext ext' : Externals) (qs : List Question)
    (a : Attempt) :
    summarizeAttempt ext' qs (summarizeAttempt ext qs a) = summarizeAttempt ext' qs a := by
  cases a with
  | mk iid qid ua sc fb =>
    cases hf : findQuestion qs qid with
    | none =>
      simp only [summarizeAttempt] at *
      simp [hf]
    | some q =>
      by_cases hma : truthyStr q.model_answer = true
      · simp [summarizeAttempt, hf, hma]
      · simp [summarizeAttempt, hf, hma]

theorem scoreInterview_length (ext : Externals) (qs : List Question) (iid : Nat)
    (l : List Attempt) : (scoreInterview ext qs iid l).length = l.length := by
  simp [scoreInterview]

theorem scoreInterview_overwrite (ext ext' : Externals) (qs : List Question) (iid : Nat)
    (l : List Attempt) :
    scoreInterview ext' qs iid (scoreInterview ext qs iid l) = scoreInterview ext' qs iid l := by
  unfold scoreInterview
  rw [List.map_map]
  apply List.map_congr_left
  intro a _
  by_cases h : (a.interview_id == iid) = true
  · have hfr := (summarizeAttempt_frame ext qs a).1
    simp [Function.comp, h, hfr, summarizeAttempt_overwrite]
  · simp [Function.comp, h]

theorem scoreInterview_fields (ext : Externals) (qs : List Question) (iid : Nat)
    (l : List Attempt) (i : Nat) (h : i < l.length) :
    ((scoreInterview ext qs iid l).getD i (mkAttempt 0 0 "")).interview_id
        = (l.getD i (mkAttempt 0 0 "")).interview_id
      ∧ ((scoreInterview ext qs iid l).getD i (mkAttempt 0 0 "")).question_id
          = (l.getD i (mkAttempt 0 0 "")).question_id
      ∧ ((scoreInterview ext qs iid l).getD i (mkAttempt 0 0 "")).user_answer
          = (l.getD i (mkAttempt 0 0 "")).user_answer := by
  have h2 : i < (scoreInterview ext qs iid l).length := by
    rw [scoreInterview_length]
    exact h
  rw [List.getD_eq_getElem l _ h, List.getD_eq_getElem _ _ h2]
  simp only [scoreInterview, List.getElem_map]
  by_cases hc : (l[i].interview_id == iid) = true
  · simp [hc, summarizeAttempt_frame]
  · simp [hc]

/-! ### Claim C4 -/

/-- C4: for every attempt whose question has no (truthy) model answer, the
summary step sets `similarity_score` to exactly 0 and `feedback` to the one
fixed fallback string, and the result is independent of every external
collaborator — neither the similarity model nor the remote endpoint is
consulted for that attempt. -/
theorem summary_no_model_answer (ext ext' : Externals) (qs : List Question)
    (a : Attempt) (q : Question)
    (hfind : findQuestion qs a.question_id = some q)
    (hma : truthyStr q.model_answer = false) :
    summarizeAttempt ext qs a
        = { a with similarity_score := some 0, feedback := some noModelAnswerFeedback }
      ∧ summarizeAttempt ext qs a = summarizeAttempt ext' qs a := by
  have h1 : ∀ e : Externals, summarizeAttempt e qs a
      = { a with similarity_score := some 0, feedback := some noModelAnswerFeedback } := by
    intro e
    simp only [summarizeAttempt, hfind]
    simp [hma]
  exact ⟨h1 ext, (h1 ext).trans (h1 ext').symm⟩

/-- A question whose `model_answer` column is null. -/
def noMAQuestion : Question :=
  { id := 2, text := "Q2", model_answer := none, subject_id := 1 }

/-- An attempt at `noMAQuestion`. -/
def noMAAttempt : Attempt :=
  { interview_id := 7, question_id := 2, user_answer := "ans",
    similarity_score := none, feedback := none }

/-- Witness for `summary_no_model_answer` at a concrete attempt whose
question has a null model answer. -/
theorem summary_no_model_answer_witness :
    summarizeAttempt simNegExternals [noMAQuestion] noMAAttempt
        = { noMAAttempt with
            similarity_score := some 0,
            feedback := some noModelAnswerFeedback }
      ∧ summarizeAttempt simNegExternals [noMAQuestion] noMAAttempt
          = summarizeAttempt simPosExternals [noMAQuestion] noMAAttempt :=
  summary_no_model_answer simNegExternals simPosExternals [noMAQuestion] noMAAttempt
    noMAQuestion (by decide) (by decide)

/-! ### Claim C10 -/

/-- C10: for every attempt whose question has a truthy model answer, the
persisted feedback is exactly one of the three fixed strings, chosen solely
by thresholds on the raw similarity value: the first if it exceeds 0.85, the
second if it is in (0.6, 0.85], the third otherwise; and the result of the
summary step does not depend on the remote chat endpoint at all
(`generate_feedback` is never invoked by `interview_summary`, which does not
even import it). -/
theorem summary_feedback_thresholds (ext : Externals)
    (g : String → Except String String) (qs : List Question)
    (a : Attempt) (q : Question)
    (hfind : findQuestion qs a.question_id = some q)
    (hma : truthyStr q.model_answer = true) :
    (85/100 < ext.sim a.user_answer (q.model_answer.getD "") →
        (summarizeAttempt ext qs a).feedback = some feedbackExcellent)
      ∧ (6/10 < ext.sim a.user_answer (q.model_answer.getD "")
            ∧ ext.sim a.user_answer (q.model_answer.getD "") ≤ 85/100 →
          (summarizeAttempt ext qs a).feedback = some feedbackGood)
      ∧ (ext.sim a.user_answer (q.model_answer.getD "") ≤ 6/10 →
          (summarizeAttempt ext qs a).feedback = some feedbackDisconnect)
      ∧ summarizeAttempt { ext with remoteChat := g } qs a = summarizeAttempt ext qs a := by
  refine ⟨?_, ?_, ?_, rfl⟩
  · intro h
    simp only [summarizeAttempt, hfind]
    simp [hma, if_pos h]
  · rintro ⟨h1, h2⟩
    simp only [summarizeAttempt, hfind]
    simp [hma, if_neg (not_lt.mpr h2), if_pos h1]
  · intro h
    have h2 : ¬(85/100 < ext.sim a.user_answer (q.model_answer.getD "")) := by
      intro hc
      linarith
    simp only [summarizeAttempt, hfind]
    simp [hma, if_neg h2, if_neg (not_lt.mpr h)]

/-- Witness for `summary_feedback_thresholds` at a concrete attempt and a
similarity oracle returning `7/10` (middle band). -/
theorem summary_feedback_thresholds_witness :
    (85/100 < simPosExternals.sim cexAttempt.user_answer
          ((cexQuestion.model_answer).getD "") →
        (summarizeAttempt simPosExternals [cexQuestion] cexAttempt).feedback
          = some feedbackExcellent)
      ∧ (6/10 < simPosExternals.sim cexAttempt.user_answer
              ((cexQuestion.model_answer).getD "")
            ∧ simPosExternals.sim cexAttempt.user_answer
                ((cexQuestion.model_answer).getD "") ≤ 85/100 →
          (summarizeAttempt simPosExternals [cexQuestion] cexAttempt).feedback
            = some feedbackGood)
      ∧ (simPosExternals.sim cexAttempt.user_answer
              ((cexQuestion.model_answer).getD "") ≤ 6/10 →
          (summarizeAttempt simPosExternals [cexQuestion] cexAttempt).feedback
            = some feedbackDisconnect)
      ∧ summarizeAttempt
            { simPosExternals with remoteChat := (fun _ => Except.error "down") }
            [cexQuestion] cexAttempt
          = summarizeAttempt simPosExternals [cexQuestion] cexAttempt :=
  summary_feedback_thresholds simPosExternals (fun _ => Except.error "down")
    [cexQuestion] cexAttempt cexQuestion (by decide) (by decide)

/-! ### Claim C2 -/

/-- An external world whose remote chat call raises. -/
def failingExternals : Externals :=
  { sim := fun _ _ => 0, remoteChat := fun _ => Except.error "ConnectionError" }

/-- C2 (code defect): `generate_feedback` contains no exception handling, so
a failing remote call propagates out of it unchanged instead of being
substituted with a fallback feedback message — a summarize step that invoked
it during an outage would abort. -/
theorem generate_feedback_propagates_failure :
    generate_feedback failingExternals "user" "model" = Except.error "ConnectionError" := rfl

/-- Evaluating the summary route on a world whose session carries a truthy
interview id that exists in the store: both session keys are popped, the
interview's attempts are scored, and the summary page is rendered. -/
theorem interview_summary_run (ext : Externals) (w : World) (iid : Nat)
    (hsid : w.session.interview_id = some iid) (h0 : iid ≠ 0)
    (hex : w.interviews.any (fun iv => iv.id == iid) = true) :
    interview_summary ext w
      = ({ w with
           session := ⟨none, none⟩,
           attempts := scoreInterview ext w.questions iid w.attempts },
         Response.renderSummary) := by
  simp only [interview_summary]
  rw [hsid]
  simp [h0, hex]

/-! ### Claim C9 -/

/-- C9: after the summarize step completes successfully on an interview,
every attempt belonging to that interview has a non-null similarity score
and non-null feedback — no attempt is skipped, whether or not its question
has a model answer. -/
theorem summary_scores_every_attempt (ext : Externals) (w : World) (iid : Nat)
    (hsid : w.session.interview_id = some iid) (h0 : iid ≠ 0)
    (hex : w.interviews.any (fun iv => iv.id == iid) = true)
    (hfk : ∀ a ∈ w.attempts, a.interview_id = iid →
      (findQuestion w.questions a.question_id).isSome) :
    (interview_summary ext w).2 = Response.renderSummary
      ∧ ∀ a ∈ (interview_summary ext w).1.attempts, a.interview_id = iid →
          a.similarity_score.isSome ∧ a.feedback.isSome := by
  rw [interview_summary_run ext w iid hsid h0 hex]
  refine ⟨rfl, ?_⟩
  intro a ha haid
  have ha2 : a ∈ scoreInterview ext w.questions iid w.attempts := by simpa using ha
  rcases List.mem_map.mp ha2 with ⟨b, hb, hab⟩
  by_cases hc : (b.interview_id == iid) = true
  · rw [if_pos hc] at hab
    have hq := hfk b hb (by simpa using hc)
    rcases Option.isSome_iff_exists.mp hq with ⟨q, hq2⟩
    rw [← hab]
    exact summarizeAttempt_isSome ext w.questions b q hq2
  · rw [if_neg hc] at hab
    rw [← hab] at haid
    simp [haid] at hc

/-- A concrete world: one interview (id 3) with two attempts, one at a
question with a model answer and one at a question without. -/
def wSummary : World :=
  { users := [], interviews := [⟨3, 1⟩],
    questions := [cexQuestion, noMAQuestion],
    attempts :=
      [{ interview_id := 3, question_id := 1, user_answer := "an answer",
         similarity_score := none, feedback := none },
       { interview_id := 3, question_id := 2, user_answer := "ans",
         similarity_score := none, feedback := none }],
    session := ⟨some 3, some [1, 2]⟩, flashes := [], next_interview_id := 4 }

/-- Witness for `summary_scores_every_attempt` on `wSummary`. -/
theorem summary_scores_every_attempt_witness :
    (interview_summary simPosExternals wSummary).2 = Response.renderSummary
      ∧ ∀ a ∈ (interview_summary simPosExternals wSummary).1.attempts,
          a.interview_id = 3 → a.similarity_score.isSome ∧ a.feedback.isSome :=
  summary_scores_every_attempt simPosExternals wSummary 3 rfl (by decide) (by decide)
    (by decide)

/-! ### Claim C6 -/

/-- C6: re-invoking the summarize step on the same interview (the session
again pointing at it, since the route popped the key) re-scores and
overwrites the scoring fields of the existing attempts but creates and
deletes no attempt row: the attempt list after the second run is exactly the
single-run scoring of the original list, its length is unchanged, and the
identity fields (interview id, question id, user answer) of every row are
unchanged.  The two runs may use different external oracles (`ext`, then
`ext2`): the second run's scores replace the first run's. -/
theorem summary_reinvoke_no_duplicates (ext ext2 : Externals) (w w2 : World) (iid : Nat)
    (hsid : w.session.interview_id = some iid) (h0 : iid ≠ 0)
    (hex : w.interviews.any (fun iv => iv.id == iid) = true)
    (hw2 : w2 = { (interview_summary ext w).1 with session := ⟨some iid, none⟩ }) :
    (interview_summary ext2 w2).1.attempts
        = scoreInterview ext2 w.questions iid w.attempts
      ∧ (interview_summary ext2 w2).1.attempts.length = w.attempts.length
      ∧ ∀ i, i < w.attempts.length →
          (((interview_summary ext2 w2).1.attempts.getD i (mkAttempt 0 0 "")).interview_id
              = (w.attempts.getD i (mkAttempt 0 0 "")).interview_id
            ∧ ((interview_summary ext2 w2).1.attempts.getD i (mkAttempt 0 0 "")).question_id
                = (w.attempts.getD i (mkAttempt 0 0 "")).question_id
            ∧ ((interview_summary ext2 w2).1.attempts.getD i (mkAttempt 0 0 "")).user_answer
                = (w.attempts.getD i (mkAttempt 0 0 "")).user_answer) := by
  rw [interview_summary_run ext w iid hsid h0 hex] at hw2
  have hrun2 : interview_summary ext2 w2
      = ({ w2 with
           session := ⟨none, none⟩,
           attempts := scoreInterview ext2 w2.questions iid w2.attempts },
         Response.renderSummary) := by
    apply interview_summary_run ext2 w2 iid _ h0 _
    · rw [hw2]
    · rw [hw2]
      simpa using hex
  have hatt : (interview_summary ext2 w2).1.attempts
      = scoreInterview ext2 w.questions iid w.attempts := by
    rw [hrun2]
    show scoreInterview ext2 w2.questions iid w2.attempts
        = scoreInterview ext2 w.questions iid w.attempts
    rw [hw2]
    show scoreInterview ext2 w.questions iid
        (scoreInterview ext w.questions iid w.attempts)
      = scoreInterview ext2 w.questions iid w.attempts
    exact scoreInterview_overwrite ext ext2 w.questions iid w.attempts
  refine ⟨hatt, ?_, ?_⟩
  · rw [hatt]
    exact scoreInterview_length ext2 w.questions iid w.attempts
  · intro i hi
    rw [hatt]
    exact scoreInterview_fields ext2 w.questions iid w.attempts i hi

/-- Witness for `summary_reinvoke_no_duplicates` on `wSummary`, first run
with one similarity oracle and re-run with another. -/
theorem summary_reinvoke_no_duplicates_witness :
    (interview_summary simNegExternals
        { (interview_summary simPosExternals wSummary).1 with
          session := ⟨some 3, none⟩ }).1.attempts
        = scoreInterview simNegExternals wSummary.questions 3 wSummary.attempts
      ∧ (interview_summary simNegExternals
          { (interview_summary simPosExternals wSummary).1 with
            session := ⟨some 3, none⟩ }).1.attempts.length = wSummary.attempts.length
      ∧ ∀ i, i < wSummary.attempts.length →
          (((interview_summary simNegExternals
                { (interview_summary simPosExternals wSummary).1 with
                  session := ⟨some 3, none⟩ }).1.attempts.getD i
                (mkAttempt 0 0 "")).interview_id
              = (wSummary.attempts.getD i (mkAttempt 0 0 "")).interview_id
            ∧ ((interview_summary simNegExternals
                  { (interview_summary simPosExternals wSummary).1 with
                    session := ⟨some 3, none⟩ }).1.attempts.getD i
                  (mkAttempt 0 0 "")).question_id
                = (wSummary.attempts.getD i (mkAttempt 0 0 "")).question_id
            ∧ ((interview_summary simNegExternals
                  { (interview_summary simPosExternals wSummary).1 with
                    session := ⟨some 3, none⟩ }).1.attempts.getD i
                  (mkAttempt 0 0 "")).user_answer
                = (wSummary.attempts.getD i (mkAttempt 0 0 "")).user_answer) :=
  summary_reinvoke_no_duplicates simPosExternals simNegExternals wSummary
    { (interview_summary simPosExternals wSummary).1 with session := ⟨some 3, none⟩ }
    3 rfl (by decide) (by decide) rfl

/-! ### Claim C3 -/

/-- Evaluating one answer submission on a world with an active session and
an in-range index: exactly one attempt row is appended, referencing the
question id at that index and the session's interview id, and nothing else
changes. -/
theorem interview_question_step (w : World) (iid : Nat) (qids : List Nat)
    (k : Nat) (a : String) (q : Question)
    (hs : w.session = ⟨some iid, some qids⟩)
    (hk : k < qids.length)
    (hq : findQuestion w.questions (qids.getD k 0) = some q)
    (hne : a ≠ "") :
    (interview_question w k (some a)).1
      = { w with attempts := w.attempts ++ [mkAttempt iid (qids.getD k 0) a] } := by
  simp only [interview_question, hs]
  rw [if_pos hk, hq]
  simp only [if_neg hne]
  by_cases hnext : k + 1 < qids.length
  · simp [hnext]
  · simp [hnext]

theorem runAnswers_spec (answers : List String) :
    ∀ (k : Nat) (w : World) (iid : Nat) (qids : List Nat),
      w.session = ⟨some iid, some qids⟩ →
      (∀ a ∈ answers, a ≠ "") →
      k + answers.length ≤ qids.length →
      (∀ qid ∈ qids, (findQuestion w.questions qid).isSome) →
      (runAnswers w k answers).attempts
          = w.attempts
            ++ List.zipWith (fun qid ans => mkAttempt iid qid ans)
                (List.take answers.length (List.drop k qids)) answers
        ∧ (runAnswers w k answers).session = w.session
        ∧ (runAnswers w k answers).questions = w.questions := by
  induction answers with
  | nil =>
    intro k w iid qids hs hne hlen hfk
    simp [runAnswers]
  | cons a rest ih =>
    intro k w iid qids hs hne hlen hfk
    have hk : k < qids.length := by
      simp only [List.length_cons] at hlen
      omega
    have hmem : qids.getD k 0 ∈ qids := by
      rw [List.getD_eq_getElem qids 0 hk]
      exact List.getElem_mem hk
    obtain ⟨q, hq⟩ := Option.isSome_iff_exists.mp (hfk _ hmem)
    have hstep := interview_question_step w iid qids k a q hs hk hq
      (hne a (List.mem_cons_self a rest))
    have hrun : runAnswers w k (a :: rest)
        = runAnswers { w with attempts := w.attempts ++ [mkAttempt iid (qids.getD k 0) a] }
            (k + 1) rest := by
      simp only [runAnswers]
      rw [hstep]
    obtain ⟨ih1, ih2, ih3⟩ :=
      ih (k + 1) { w with attempts := w.attempts ++ [mkAttempt iid (qids.getD k 0) a] }
        iid qids (by simpa using hs)
        (fun x hx => hne x (List.mem_cons_of_mem a hx))
        (by simp only [List.length_cons] at hlen; omega)
        (by simpa using hfk)
    have hdrop : qids.drop k = qids[k] :: qids.drop (k + 1) :=
      List.drop_eq_getElem_cons hk
    refine ⟨?_, ?_, ?_⟩
    · rw [hrun, ih1]
      simp only [List.length_cons, hdrop, List.take_succ_cons]
      rw [List.getD_eq_getElem qids 0 hk]
      simp [List.zipWith]
    · rw [hrun, ih2]
    · rw [hrun, ih3]

/-- C3: with an active session holding the interview id and a fixed sequence
of `N` selected question ids, submitting `N` non-empty answers at indices
`0 .. N-1` in order creates exactly `N` attempt rows — the run appends
precisely the list that pairs the `i`-th question id with the `i`-th answer
under the session's interview id, so the attempt created at index `i`
references the `i`-th question id. -/
theorem question_flow_records_all (w : World) (iid : Nat) (qids : List Nat)
    (answers : List String)
    (hs : w.session = ⟨some iid, some qids⟩)
    (hne : ∀ a ∈ answers, a ≠ "")
    (hlen : answers.length = qids.length)
    (hfk : ∀ qid ∈ qids, (findQuestion w.questions qid).isSome) :
    (runAnswers w 0 answers).attempts
        = w.attempts ++ List.zipWith (fun qid ans => mkAttempt iid qid ans) qids answers
      ∧ (runAnswers w 0 answers).attempts.length
          = w.attempts.length + qids.length := by
  obtain ⟨h1, _, _⟩ := runAnswers_spec answers 0 w iid qids hs hne (by omega) hfk
  rw [List.drop_zero, hlen, List.take_length qids] at h1
  refine ⟨h1, ?_⟩
  rw [h1]
  simp [List.length_zipWith, hlen]

/-- A concrete world with an active two-question session and no attempts. -/
def wFlow : World :=
  { users := [], interviews := [⟨3, 1⟩],
    questions := [cexQuestion, noMAQuestion],
    attempts := [], session := ⟨some 3, some [1, 2]⟩,
    flashes := [], next_interview_id := 4 }

/-- Witness for `question_flow_records_all`: submitting two answers on
`wFlow` appends exactly the two matching attempt rows. -/
theorem question_flow_records_all_witness :
    (runAnswers wFlow 0 ["first answer", "second answer"]).attempts
        = wFlow.attempts
          ++ List.zipWith (fun qid ans => mkAttempt 3 qid ans) [1, 2]
              ["first answer", "second answer"]
      ∧ (runAnswers wFlow 0 ["first answer", "second answer"]).attempts.length
          = wFlow.attempts.length + [1, 2].length :=
  question_flow_records_all wFlow 3 [1, 2] ["first answer", "second answer"]
    rfl (by decide) rfl (by decide)

/-! ### Claim C7 -/

/-- C7: viewing a question never errors in the two guard situations: with no
active interview session the request redirects to the dashboard with a
flash message, and with an active session but an index at or past the end
of the question sequence it redirects to the summary (for GETs and POSTs
alike). -/
theorem question_route_guards (w : World) (idx : Nat) (post : Option String) :
    (w.session.question_ids = none →
        interview_question w idx post
          = ({ w with flashes := w.flashes ++ [sessionNotFoundMsg] },
             Response.redirectDashboard))
      ∧ ∀ qids, w.session.question_ids = some qids → qids.length ≤ idx →
          interview_question w idx post = (w, Response.redirectSummary) := by
  constructor
  · intro h
    simp [interview_question, h]
  · intro qids h hlen
    simp only [interview_question, h]
    rw [if_neg (not_lt.mpr hlen)]

/-- A world with no interview session at all. -/
def wNoSession : World :=
  { users := [], interviews := [], questions := [], attempts := [],
    session := ⟨none, none⟩, flashes := [], next_interview_id := 1 }

/-- Witness for `question_route_guards`: a GET with no session redirects to
the dashboard, and a GET past the end of `wFlow`'s two-question sequence
redirects to the summary. -/
theorem question_route_guards_witness :
    interview_question wNoSession 0 none
        = ({ wNoSession with flashes := wNoSession.flashes ++ [sessionNotFoundMsg] },
           Response.redirectDashboard)
      ∧ interview_question wFlow 2 none = (wFlow, Response.redirectSummary) :=
  ⟨(question_route_guards wNoSession 0 none).1 rfl,
   (question_route_guards wFlow 2 none).2 [1, 2] rfl (by decide)⟩

/-! ### Claim C5 -/

/-- C5: a start-interview request whose selected subjects have zero
associated questions redirects back to the dashboard with the
"no questions" flash message and creates no attempt row (for any behaviour
of the randomised ordering, as long as it permutes the filtered list). -/
theorem dashboard_no_questions (w : World) (user_id : Nat) (selected : List Nat)
    (shuffle : List Question → List Question)
    (hsel : selected.isEmpty = false)
    (hperm : ∀ l, (shuffle l).Perm l)
    (hzero : ∀ q ∈ w.questions, selected.contains q.subject_id = false) :
    (dashboard w user_id selected shuffle).2 = Response.redirectDashboard
      ∧ noQuestionsMsg ∈ (dashboard w user_id selected shuffle).1.flashes
      ∧ (dashboard w user_id selected shuffle).1.attempts = w.attempts := by
  have hfilter : w.questions.filter (fun q => selected.contains q.subject_id) = [] := by
    rw [List.filter_eq_nil_iff]
    intro q hq
    simpa using hzero q hq
  have hsh : shuffle [] = [] := (hperm []).eq_nil
  simp only [dashboard, hsel]
  rw [hfilter, hsh]
  simp

/-- A world holding one question, of subject 1. -/
def wDash : World :=
  { users := [], interviews := [], questions := [cexQuestion], attempts := [],
    session := ⟨none, none⟩, flashes := [], next_interview_id := 1 }

/-- Witness for `dashboard_no_questions`: selecting subject 2, which has no
questions in `wDash`, with the identity ordering. -/
theorem dashboard_no_questions_witness :
    (dashboard wDash 1 [2] (fun l => l)).2 = Response.redirectDashboard
      ∧ noQuestionsMsg ∈ (dashboard wDash 1 [2] (fun l => l)).1.flashes
      ∧ (dashboard wDash 1 [2] (fun l => l)).1.attempts = wDash.attempts :=
  dashboard_no_questions wDash 1 [2] (fun l => l) rfl (fun l => List.Perm.refl l)
    (by decide)

/-! ### Claim C8 -/

/-- Searching an appended user store when no existing user matches the
e-mail: the lookup falls through to the new row. -/
theorem find?_fresh_append (users : List UserRec) (nu : UserRec) (email : String)
    (hfresh : ∀ u ∈ users, (u.email == email) = false) :
    (users ++ [nu]).find? (fun u => u.email == email)
      = if (nu.email == email) = true then some nu else none := by
  induction users with
  | nil =>
    by_cases h : (nu.email == email) = true
    · simp [List.find?, h]
    · simp only [List.nil_append, List.find?]
      simp [h]
  | cons u us ih =>
    have h := hfresh u (List.mem_cons_self u us)
    simp only [List.cons_append, List.find?, h]
    exact ih (fun x hx => hfresh x (List.mem_cons_of_mem u hx))

/-- C8: registering a previously unused e-mail with a password of at least
the minimum length 6 (and matching confirmation) succeeds, and a subsequent
login with the same credentials succeeds: the stored hash of the password
verifies against the same plaintext, by the hash library's round-trip
property. -/
theorem register_then_login (hs : HashScheme) (emailValid : String → Bool)
    (users : List UserRec) (email password confirm : String)
    (hround : hs.check (hs.gen password) password = true)
    (hfresh : ∀ u ∈ users, u.email ≠ email)
    (hev : emailValid email = true) (hne : email ≠ "")
    (hlen : 6 ≤ password.length) (hconf : confirm = password) :
    (register hs emailValid users email password confirm).2 = Response.redirectLogin
      ∧ login hs (register hs emailValid users email password confirm).1 email password
          = LoginResult.success := by
  have hany : (users.any (fun u => u.email == email)) = false := by
    rw [List.any_eq_false]
    intro u hu
    simp [hfresh u hu]
  have hreg : register hs emailValid users email password confirm
      = (users ++ [⟨email, hs.gen password⟩], Response.redirectLogin) := by
    simp only [register, if_pos (And.intro hne (And.intro hev (And.intro hlen hconf)))]
    simp [hany]
  rw [hreg]
  refine ⟨rfl, ?_⟩
  simp only [login]
  rw [find?_fresh_append users ⟨email, hs.gen password⟩ email
    (fun u hu => by simp [hfresh u hu])]
  simp [hround]

/-- A trivially invertible hash scheme, standing in for the external
library's round-trip guarantee in the witness. -/
def idHash : HashScheme :=
  { gen := fun s => s, check := fun h p => h == p }

/-- Witness for `register_then_login`: registering `a@x.com` / `secret1`
on an empty store and logging back in. -/
theorem register_then_login_witness :
    (register idHash (fun _ => true) [] "a@x.com" "secret1" "secret1").2
        = Response.redirectLogin
      ∧ login idHash
          (register idHash (fun _ => true) [] "a@x.com" "secret1" "secret1").1
          "a@x.com" "secret1" = LoginResult.success :=
  register_then_login idHash (fun _ => true) [] "a@x.com" "secret1" "secret1"
    (by decide) (by simp) rfl (by decide) (by decide) rfl

end MockInterview
